import Mathlib

/-!
Verification of the research-helper repository's core pipeline:
the Document Chunker, the AI Gateway (SiliconFlow chat-completion calls
with model fallback), the PDF Text Extractor, the History Store and the
Key Store.  Each definition is a shallow embedding of the corresponding
TypeScript function; theorems settle the specification's claims.
-/

namespace ResearchHelper

/-! ## Document Chunker (src/services/apiKeyStore.ts, splitIntoChunks)

JS strings are modelled as lists of characters.  `text.slice(start, end)`
with `0 <= start <= end <= text.length` is `(text.drop start).take (end - start)`.
The `while` loop is embedded with explicit fuel: `none` models divergence
(the JS loop does not terminate when `overlap >= size` and the text is long
enough), which claim C9 rules out under `overlap < size`. -/

def sliceJs (text : List Char) (s e : Nat) : List Char :=
  (text.drop s).take (e - s)

def NOTE_CHUNK_SIZE : Nat := 9000

def NOTE_CHUNK_OVERLAP : Nat := 300

def chunksGo (text : List Char) (size overlap : Nat) :
    Nat → Nat → Option (List (List Char))
  | 0, _ => none
  | fuel + 1, start =>
    if start < text.length then
      let e := min (start + size) text.length
      let chunk := sliceJs text start e
      if e = text.length then
        some [chunk]
      else
        (chunksGo text size overlap fuel (e - overlap)).map (chunk :: ·)
    else
      some []

def splitIntoChunks (text : List Char) (size overlap : Nat) :
    Option (List (List Char)) :=
  if text.length ≤ size then some [text]
  else chunksGo text size overlap (text.length + 1) 0

/-- The window spans `[start, end)` produced by the same loop, used to state
index coverage of the produced chunks. -/
def spansGo (len size overlap : Nat) : Nat → Nat → Option (List (Nat × Nat))
  | 0, _ => none
  | fuel + 1, start =>
    if start < len then
      let e := min (start + size) len
      if e = len then
        some [(start, e)]
      else
        (spansGo len size overlap fuel (e - overlap)).map ((start, e) :: ·)
    else
      some []

def chunkSpans (text : List Char) (size overlap : Nat) :
    Option (List (Nat × Nat)) :=
  if text.length ≤ size then some [(0, text.length)]
  else spansGo text.length size overlap (text.length + 1) 0

/-! ## JS string helpers

JS `String.prototype.trim` removes leading and trailing whitespace; it is
modelled structurally over the character list so that the kernel can
evaluate it on concrete inputs. -/

def trimChars (l : List Char) : List Char :=
  ((l.dropWhile Char.isWhitespace).reverse.dropWhile Char.isWhitespace).reverse

def jsTrim (s : String) : String :=
  String.mk (trimChars s.data)

/-- JS `a || b` on an optional string: `null`/`undefined` and the empty
string are falsy and yield the default. -/
def jsOrElse (s : Option String) (dflt : String) : String :=
  match s with
  | none => dflt
  | some t => if t = "" then dflt else t

/-! ## Key Store (src/services/apiKeyStore.ts)

The browser's localStorage slot for the credential is modelled as an
`Option String` (`none` = no entry).  `setApiKey` stores the trimmed key
when the key is truthy (non-empty) and removes the entry otherwise; the
stored state does not depend on the previous one. -/

def getApiKey (store : Option String) : Option String :=
  store

def setApiKey (key : String) : Option String :=
  if key = "" then none else some (jsTrim key)

/-! ## AI Gateway (src/services/geminiService.ts and the gateway copy in
src/services/apiKeyStore.ts)

The provider network is an oracle `Net` mapping a request (model, messages,
options) to an HTTP response; each gateway function also returns the list
of requests it issued, in order, so that retry/fallback behaviour and
"no network call" claims are observable. -/

def TEXT_MODEL : String := "deepseek-ai/DeepSeek-V3.2"

def TEXT_FALLBACK_MODEL : String := "zai-org/GLM-4.6V"

def VISION_MODEL : String := "Qwen/Qwen3-VL-32B-Instruct"

def VISION_FALLBACK_MODEL : String := "zai-org/GLM-4.6V"

inductive UserPart where
  | text : String → UserPart
  | imageUrl : String → UserPart
  | file : String → Option String → Option String → UserPart
  deriving DecidableEq

/-- A request-side chat message: role plus either plain string content or
an array of typed parts. -/
structure ChatMessagePayload where
  role : String
  content : String ⊕ List UserPart
  deriving DecidableEq

/-- Per-call tuning recorded in the request body (`max_tokens`,
`response_format: json_object`). -/
structure CallOptions where
  maxTokens : Option Nat
  responseFormatJson : Bool
  deriving DecidableEq

/-- A response-side content part (`{type, text?}`). -/
structure ContentPart where
  type : String
  text : Option String
  deriving DecidableEq

/-- Provider content is either a plain string or an array of typed parts. -/
inductive RespContent where
  | str : String → RespContent
  | parts : List ContentPart → RespContent
  deriving DecidableEq

/-- The observable part of the provider's HTTP answer: success flag, the
chained error message (`data.error.message || data.message || statusText`),
and the value at `choices[0].message.content` (`none` when absent). -/
structure HttpResponse where
  ok : Bool
  errMsg : String
  content : Option RespContent
  deriving DecidableEq

inductive GatewayError where
  | missingKey : String → GatewayError
  | apiError : String → GatewayError
  | noContent : String → GatewayError
  | emptyText : String → GatewayError
  | malformedResult : String → GatewayError
  | emptyDocument : String → GatewayError
  deriving DecidableEq

/-- One issued provider request. -/
structure SfRequest where
  model : String
  messages : List ChatMessagePayload
  options : CallOptions
  deriving DecidableEq

abbrev Net : Type := String → List ChatMessagePayload → CallOptions → HttpResponse

def missingKeyMessage : String :=
  "请先在顶部输入 SiliconFlow API Key（仅保存在本地浏览器）。"

/-- ensureApiKey: reads the key store; `null` and the empty string are both
falsy in the JS check `if (!key)`. -/
def ensureApiKey (store : Option String) : Except GatewayError String :=
  match getApiKey store with
  | none => .error (.missingKey missingKeyMessage)
  | some k => if k = "" then .error (.missingKey missingKeyMessage) else .ok k

/-- JS `!content`: `undefined` and the empty string are falsy; a (possibly
empty) array is truthy. -/
def contentIsFalsy : Option RespContent → Bool
  | none => true
  | some (.str s) => s == ""
  | some (.parts _) => false

/-- Normalization of the provider content: a plain string is taken as is;
for an array the first part with `type = "text"` supplies the text
(`textPart?.text || ""`). -/
def extractText : Option RespContent → String
  | some (.str s) => s
  | some (.parts l) =>
    match l.find? (fun c => c.type == "text") with
    | some p => p.text.getD ""
    | none => ""
  | none => ""

/-- callSiliconChat: ensure the key, issue one request, then check the
status, the presence of content and non-whitespace text, in that order.
The second component lists the requests actually issued. -/
def callSiliconChat (store : Option String) (net : Net) (model : String)
    (messages : List ChatMessagePayload) (options : CallOptions) :
    Except GatewayError String × List SfRequest :=
  match ensureApiKey store with
  | .error e => (.error e, [])
  | .ok _ =>
    let res := net model messages options
    let issued : List SfRequest := [⟨model, messages, options⟩]
    if !res.ok then
      (.error (.apiError (if res.errMsg == "" then "SiliconFlow API 请求失败" else res.errMsg)),
        issued)
    else if contentIsFalsy res.content then
      (.error (.noContent "模型未返回内容"), issued)
    else
      let text := extractText res.content
      if jsTrim text == "" then
        (.error (.emptyText "模型返回为空，请稍后重试或检查文件大小/格式"), issued)
      else
        (.ok text, issued)

/-- callWithFallback: try the primary model; on any failure retry once with
the fallback model using identical messages and options, and let the
fallback's outcome stand. -/
def callWithFallback (store : Option String) (net : Net)
    (primaryModel fallbackModel : String)
    (messages : List ChatMessagePayload) (options : CallOptions) :
    Except GatewayError String × List SfRequest :=
  let first := callSiliconChat store net primaryModel messages options
  match first.1 with
  | .ok t => (.ok t, first.2)
  | .error _ =>
    let second := callSiliconChat store net fallbackModel messages options
    (second.1, first.2 ++ second.2)

/-! ## Formula JSON parsing (parseFormulaJson) -/

def noteSystemPayload : ChatMessagePayload :=
  ⟨"system",
    Sum.inl ("你是一名学术精读助手，请输出结构化的 Markdown 精读笔记（简体中文）。" ++
      "保持原有章节/小节顺序，重点标出公式（用 $$ 包裹 LaTeX）与结论，勿遗漏本段内容。")⟩

def noteUserText (title : Option String) (i total : Nat) (chunk : String) : String :=
  "论文标题: " ++ jsOrElse title "未命名论文" ++ "\n" ++
  "以下是第 " ++ toString (i + 1) ++ "/" ++ toString total ++
  " 段的 PDF 纯文本（包含少量上下文重叠）。\n" ++
  "请仅基于这段内容生成精读笔记，并保留对应的小标题/序号，勿笼统概括其他段落。\n\n" ++
  chunk

def noteMessages (title : Option String) (i total : Nat) (chunk : String) :
    List ChatMessagePayload :=
  [noteSystemPayload, ⟨"user", Sum.inr [UserPart.text (noteUserText title i total chunk)]⟩]

def noteOptions : CallOptions := ⟨some 5200, false⟩

def noteHeader : String := "# 精读笔记（完整无截断）\n"

/-- String-level wrapper of the chunker used by `analyzePaper`. -/
def splitIntoChunksStr (text : String) (size overlap : Nat) : Option (List String) :=
  (splitIntoChunks text.data size overlap).map (List.map fun l => String.mk l)

/-- The sequential per-chunk loop of `analyzePaper`: one gateway call per
chunk, in chunk order; the first failing chunk aborts with its error and no
later call is issued. -/
def analyzeGo (store : Option String) (net : Net) (title : Option String) (total : Nat) :
    Nat → List String → Except GatewayError (List String) × List SfRequest
  | _, [] => (.ok [], [])
  | i, chunk :: rest =>
    let p := callWithFallback store net TEXT_MODEL TEXT_FALLBACK_MODEL
      (noteMessages title i total chunk) noteOptions
    match p.1 with
    | .error e => (.error e, p.2)
    | .ok note =>
      let q := analyzeGo store net title total (i + 1) rest
      match q.1 with
      | .error e => (.error e, p.2 ++ q.2)
      | .ok notes =>
        (.ok (("## 部分 " ++ toString (i + 1) ++ "\n" ++ jsTrim note) :: notes), p.2 ++ q.2)

/-- analyzePaper of the chunked gateway: chunk the text, process the chunks
sequentially, and prepend the synthetic top-level heading.  The outer
`Option` is inherited from the fuelled chunker. -/
def analyzePaper (store : Option String) (net : Net) (pdfText : String)
    (title : Option String) :
    Option (Except GatewayError String × List SfRequest) :=
  (splitIntoChunksStr pdfText NOTE_CHUNK_SIZE NOTE_CHUNK_OVERLAP).map fun chunks =>
    let r := analyzeGo store net title chunks.length 0 chunks
    (r.1.map (fun notes => noteHeader ++ String.intercalate "\n\n" notes), r.2)

/-! ## Chat with paper (src/services/geminiService.ts, chatWithPaper) -/

structure ChatMessage where
  role : String
  text : String
  timestamp : Nat
  deriving DecidableEq

def emptyDocMessage : String := "PDF 文本为空，无法回答，请重新上传文件。"

def truncateForContext (paperText : String) : String :=
  if paperText.length > 12000 then (paperText.take 12000) ++ "\n\n[内容截断，后续略]"
  else paperText

def chatHistoryText (history : List ChatMessage) : String :=
  String.intercalate "\n"
    (history.map fun m => (if m.role == "user" then "用户" else "助手") ++ ": " ++ m.text)

def chatSystemPayload : ChatMessagePayload :=
  ⟨"system", Sum.inl "你是学术论文问答助手，请结合给定论文文本，用简体中文简洁作答。"⟩

def chatUserText (paperText : String) (history : List ChatMessage)
    (newMessage : String) (title : Option String) : String :=
  "论文标题: " ++ jsOrElse title "未命名论文" ++ "\n" ++
  "论文内容（截断可能存在）:\n" ++ truncateForContext paperText ++ "\n\n" ++
  "历史对话:\n" ++ chatHistoryText history ++ "\n\n" ++
  "新问题: " ++ newMessage

/-- chatWithPaper: reject an empty or whitespace-only document before
building any message or issuing any request. -/
def chatWithPaper (store : Option String) (net : Net) (paperText : String)
    (history : List ChatMessage) (newMessage : String) (title : Option String) :
    Except GatewayError String × List SfRequest :=
  if jsTrim paperText == "" then
    (.error (.emptyDocument emptyDocMessage), [])
  else
    callWithFallback store net TEXT_MODEL TEXT_FALLBACK_MODEL
      [chatSystemPayload,
        ⟨"user", Sum.inr [UserPart.text (chatUserText paperText history newMessage title)]⟩]
      ⟨some 800, false⟩

/-! ## PDF Text Extractor (src/services/pdfText.ts)

The opened document is modelled abstractly: a list of pages, each a list of
text fragments (the `str` fields of the text-content items). -/

structure PdfPage where
  items : List String

structure PdfDoc where
  pages : List PdfPage

def pageBlock (pageNum : Nat) (page : PdfPage) : String :=
  "\n\n[Page " ++ toString pageNum ++ "]\n" ++ String.intercalate " " page.items

/-- The page loop of `extractPdfText`, accumulating `fullText`. -/
def extractGo : Nat → List PdfPage → String → String
  | _, [], acc => acc
  | pageNum, page :: rest, acc => extractGo (pageNum + 1) rest (acc ++ pageBlock pageNum page)

def extractPdfText (doc : PdfDoc) : String × Nat :=
  (jsTrim (extractGo 1 doc.pages ""), doc.pages.length)

/-- Specification-level rendering: the per-page blocks concatenated in page
order, starting from the given page number. -/
def pageBlocks : Nat → List PdfPage → String
  | _, [] => ""
  | pageNum, page :: rest => pageBlock pageNum page ++ pageBlocks (pageNum + 1) rest

/-! ## History Store (src/components/PaperFeature.tsx, saveToHistory) -/

structure HistoryItem where
  id : String
  itemType : String
  fileName : Option String
  timestamp : Nat
  content : String ⊕ List ChatMessage
  sourcePreview : Option String
  deriving DecidableEq

/-- saveToHistory: drop any entry with the same id, then prepend the new
item (most-recent-first). -/
def saveToHistory (history : List HistoryItem) (item : HistoryItem) :
    List HistoryItem :=
  item :: history.filter (fun h => h.id != item.id)

/-! ## Concrete oracles used by the witnesses -/

def fbNet : Net := fun model _ _ =>
  if model == TEXT_MODEL then ⟨false, "primary down", none⟩
  else ⟨true, "", some (.str "fallback answer")⟩

def allOkNet : Net := fun _ _ _ => ⟨true, "", some (.str "N")⟩

lemma chunksGo_eq_spansGo (text : List Char) (size overlap : Nat) :
    ∀ fuel start, chunksGo text size overlap fuel start =
      (spansGo text.length size overlap fuel start).map
        (List.map fun p => sliceJs text p.1 p.2) := by
  intro fuel
  induction fuel with
  | zero => intro start; rfl
  | succ n ih =>
    intro start
    simp only [chunksGo, spansGo]
    by_cases h : start < text.length
    · simp only [h, if_true]
      by_cases he : min (start + size) text.length = text.length
      · simp [he]
      · simp only [he, if_false, ih]
        cases spansGo text.length size overlap n (min (start + size) text.length - overlap) with
        | none => rfl
        | some l => rfl
    · simp [h]

lemma spansGo_isSome (len size overlap : Nat) (hov : overlap < size) :
    ∀ fuel start, len - start < fuel →
      ∃ l, spansGo len size overlap fuel start = some l := by
  intro fuel
  induction fuel with
  | zero => intro start h; omega
  | succ n ih =>
    intro start h
    simp only [spansGo]
    by_cases hs : start < len
    · rw [if_pos hs]
      by_cases he : min (start + size) len = len
      · rw [if_pos he]
        exact ⟨_, rfl⟩
      · rw [if_neg he]
        have hmin : min (start + size) len = start + size := by omega
        rw [hmin]
        obtain ⟨l, hl⟩ := ih (start + size - overlap) (by omega)
        rw [hl]
        exact ⟨_, rfl⟩
    · rw [if_neg hs]
      exact ⟨_, rfl⟩

lemma spansGo_covers (len size overlap : Nat) :
    ∀ fuel start spans, spansGo len size overlap fuel start = some spans →
      ∀ i, start ≤ i → i < len → ∃ p ∈ spans, p.1 ≤ i ∧ i < p.2 := by
  intro fuel
  induction fuel with
  | zero => intro start spans h; simp [spansGo] at h
  | succ n ih =>
    intro start spans h i hsi hilen
    simp only [spansGo] at h
    by_cases hs : start < len
    · simp only [hs, if_true] at h
      by_cases he : min (start + size) len = len
      · simp only [he, if_true, Option.some.injEq] at h
        subst h
        exact ⟨(start, len), by simp [he], hsi, hilen⟩
      · simp only [he, if_false, Option.map_eq_some'] at h
        obtain ⟨rest, hrest, hspans⟩ := h
        subst hspans
        by_cases hie : i < min (start + size) len
        · exact ⟨(start, min (start + size) len), by simp, hsi, hie⟩
        · have hge : min (start + size) len ≤ i := Nat.le_of_not_lt hie
          obtain ⟨p, hp, hcov⟩ :=
            ih (min (start + size) len - overlap) rest hrest i (by omega) hilen
          exact ⟨p, by simp [hp], hcov⟩
    · omega

lemma splitIntoChunks_eq_spans (text : List Char) (size overlap : Nat) :
    splitIntoChunks text size overlap =
      (chunkSpans text size overlap).map
        (List.map fun p => sliceJs text p.1 p.2) := by
  by_cases hle : text.length ≤ size
  · simp [splitIntoChunks, chunkSpans, hle, sliceJs]
  · simp [splitIntoChunks, chunkSpans, hle, chunksGo_eq_spansGo]

/-- C1: for every text `T` and parameters `size`, `overlap` with
`overlap < size`, `splitIntoChunks` returns exactly one chunk equal to `T`
when `T.length ≤ size`, and in general returns the slices of a list of
window spans that together cover every character index of `T`. -/
theorem c1_document_chunker_coverage (text : List Char) (size overlap : Nat)
    (h : overlap < size) :
    (text.length ≤ size → splitIntoChunks text size overlap = some [text]) ∧
    ∃ spans, chunkSpans text size overlap = some spans ∧
      splitIntoChunks text size overlap =
        some (spans.map fun p => sliceJs text p.1 p.2) ∧
      ∀ i < text.length, ∃ p ∈ spans, p.1 ≤ i ∧ i < p.2 := by
  constructor
  · intro hle
    simp [splitIntoChunks, hle]
  · by_cases hle : text.length ≤ size
    · refine ⟨[(0, text.length)], by simp [chunkSpans, hle], ?_, ?_⟩
      · simp [splitIntoChunks, hle, sliceJs]
      · intro i hi
        exact ⟨(0, text.length), by simp, Nat.zero_le i, hi⟩
    · obtain ⟨spans, hsp⟩ :=
        spansGo_isSome text.length size overlap h (text.length + 1) 0 (by omega)
      refine ⟨spans, ?_, ?_, ?_⟩
      · simp [chunkSpans, hle, hsp]
      · simp [splitIntoChunks, hle, chunksGo_eq_spansGo, hsp]
      · intro i hi
        exact spansGo_covers text.length size overlap (text.length + 1) 0 spans
          hsp i (Nat.zero_le i) hi

theorem c1_document_chunker_coverage_witness :
    ((['a', 'b', 'c', 'd', 'e'] : List Char).length ≤ 2 →
      splitIntoChunks ['a', 'b', 'c', 'd', 'e'] 2 1 =
        some [['a', 'b', 'c', 'd', 'e']]) ∧
    ∃ spans, chunkSpans ['a', 'b', 'c', 'd', 'e'] 2 1 = some spans ∧
      splitIntoChunks ['a', 'b', 'c', 'd', 'e'] 2 1 =
        some (spans.map fun p => sliceJs ['a', 'b', 'c', 'd', 'e'] p.1 p.2) ∧
      ∀ i < (['a', 'b', 'c', 'd', 'e'] : List Char).length,
        ∃ p ∈ spans, p.1 ≤ i ∧ i < p.2 :=
  c1_document_chunker_coverage ['a', 'b', 'c', 'd', 'e'] 2 1 (by decide)

/-- C9: under the precondition `overlap < size` the chunking loop
terminates: the fuelled embedding returns a result (it never exhausts its
fuel), because each iteration either reaches the end of the text or the
window start strictly increases by `size - overlap > 0`. -/
theorem c9_document_chunker_terminates (text : List Char) (size overlap : Nat)
    (h : overlap < size) :
    ∃ cs, splitIntoChunks text size overlap = some cs := by
  by_cases hle : text.length ≤ size
  · exact ⟨[text], by simp [splitIntoChunks, hle]⟩
  · obtain ⟨spans, hsp⟩ :=
      spansGo_isSome text.length size overlap h (text.length + 1) 0 (by omega)
    exact ⟨spans.map fun p => sliceJs text p.1 p.2,
      by simp [splitIntoChunks, hle, chunksGo_eq_spansGo, hsp]⟩

theorem c9_document_chunker_terminates_witness :
    ∃ cs, splitIntoChunks ['x', 'y', 'z'] 2 1 = some cs :=
  c9_document_chunker_terminates ['x', 'y', 'z'] 2 1 (by decide)

/-- C3: if the primary-model call fails for any reason and the fallback
call with identical messages and options succeeds, `callWithFallback`
returns the fallback's normalized text with no error, the fallback request
reusing the same messages and options; if both fail, the fallback
attempt's error propagates. -/
theorem c3_gateway_fallback (store : Option String) (net : Net)
    (primaryModel fallbackModel : String)
    (messages : List ChatMessagePayload) (options : CallOptions) :
    (∀ e t, (callSiliconChat store net primaryModel messages options).1 = .error e →
      (callSiliconChat store net fallbackModel messages options).1 = .ok t →
      callWithFallback store net primaryModel fallbackModel messages options =
        (.ok t, (callSiliconChat store net primaryModel messages options).2 ++
          (callSiliconChat store net fallbackModel messages options).2)) ∧
    (∀ e e', (callSiliconChat store net primaryModel messages options).1 = .error e →
      (callSiliconChat store net fallbackModel messages options).1 = .error e' →
      (callWithFallback store net primaryModel fallbackModel messages options).1 =
        .error e') := by
  constructor
  · intro e t h1 h2
    simp only [callWithFallback, h1, h2]
  · intro e e' h1 h2
    simp only [callWithFallback, h1, h2]

theorem c3_gateway_fallback_witness :
    callWithFallback (some "k") fbNet TEXT_MODEL TEXT_FALLBACK_MODEL [] ⟨none, false⟩ =
      (.ok "fallback answer",
        (callSiliconChat (some "k") fbNet TEXT_MODEL [] ⟨none, false⟩).2 ++
        (callSiliconChat (some "k") fbNet TEXT_FALLBACK_MODEL [] ⟨none, false⟩).2) :=
  (c3_gateway_fallback (some "k") fbNet TEXT_MODEL TEXT_FALLBACK_MODEL [] ⟨none, false⟩).1
    (.apiError "primary down") "fallback answer" rfl rfl

/-- C4: with no credential in the Key Store, every gateway call (and hence
every gateway operation, all of which go through `callWithFallback`) fails
with the missing-key error, whose user-visible message asks for an API
key, and no provider request at all is issued — in particular none against
the fallback model. -/
theorem c4_missing_credential (store : Option String) (net : Net)
    (primaryModel fallbackModel : String)
    (messages : List ChatMessagePayload) (options : CallOptions)
    (h : getApiKey store = none) :
    callWithFallback store net primaryModel fallbackModel messages options =
      (.error (.missingKey missingKeyMessage), []) ∧
    ∃ pre post, missingKeyMessage = pre ++ "API Key" ++ post := by
  constructor
  · simp [callWithFallback, callSiliconChat, ensureApiKey, h]
  · exact ⟨"请先在顶部输入 SiliconFlow ", "（仅保存在本地浏览器）。", rfl⟩

theorem c4_missing_credential_witness :
    (callWithFallback none allOkNet TEXT_MODEL TEXT_FALLBACK_MODEL [] ⟨none, false⟩ =
      (.error (.missingKey missingKeyMessage), []) ∧
    ∃ pre post, missingKeyMessage = pre ++ "API Key" ++ post) :=
  c4_missing_credential none allOkNet TEXT_MODEL TEXT_FALLBACK_MODEL [] ⟨none, false⟩ rfl

/-- C8: chat over an empty or whitespace-only document fails with the
empty-document error and issues no network request. -/
theorem c8_chat_empty_document (store : Option String) (net : Net)
    (paperText : String) (history : List ChatMessage) (newMessage : String)
    (title : Option String) (h : jsTrim paperText = "") :
    chatWithPaper store net paperText history newMessage title =
      (.error (.emptyDocument emptyDocMessage), []) := by
  simp [chatWithPaper, h]

theorem c8_chat_empty_document_witness :
    chatWithPaper (some "k") allOkNet "  \n " [] "你好" none =
      (.error (.emptyDocument emptyDocMessage), []) :=
  c8_chat_empty_document (some "k") allOkNet "  \n " [] "你好" none (by decide)

/-- C10: storing a non-empty key and reading it back yields the trimmed
key, and storing the empty string removes the credential, so a subsequent
read yields `none`. -/
theorem c10_key_store_roundtrip (k : String) :
    (k ≠ "" → getApiKey (setApiKey k) = some (jsTrim k)) ∧
    getApiKey (setApiKey "") = none := by
  constructor
  · intro hk
    simp [setApiKey, getApiKey, hk]
  · simp [setApiKey, getApiKey]

theorem c10_key_store_roundtrip_witness :
    getApiKey (setApiKey " secret ") = some (jsTrim " secret ") ∧
    getApiKey (setApiKey "") = none :=
  ⟨(c10_key_store_roundtrip " secret ").1 (by decide),
   (c10_key_store_roundtrip " secret ").2⟩

lemma extractGo_eq (ps : List PdfPage) :
    ∀ (k : Nat) (acc : String), extractGo k ps acc = acc ++ pageBlocks k ps := by
  induction ps with
  | nil =>
    intro k acc
    simp [extractGo, pageBlocks]
  | cons p rest ih =>
    intro k acc
    simp only [extractGo, pageBlocks, ih, String.append_assoc]

/-- C6: text extraction walks pages 1..N in order, joins each page's
fragments with single spaces inside a `[Page k]`-marked block, concatenates
the blocks in page order, trims the result and reports `pages = N`; on the
three-page document with fragments "A", "B", "C" it yields the three
markers in order and `pages = 3`. -/
theorem c6_pdf_text_extraction :
    (∀ doc : PdfDoc,
      extractPdfText doc = (jsTrim (pageBlocks 1 doc.pages), doc.pages.length)) ∧
    extractPdfText ⟨[⟨["A"]⟩, ⟨["B"]⟩, ⟨["C"]⟩]⟩ =
      ("[Page 1]\nA\n\n[Page 2]\nB\n\n[Page 3]\nC", 3) := by
  constructor
  · intro doc
    simp [extractPdfText, extractGo_eq]
  · decide

/-- C7: inserting an item whose id matches an existing entry removes the
old entry and prepends the new one; under the data model's invariant that
ids are unique, the result again has exactly one entry per id, and the
entries with other ids are preserved in their relative order. -/
theorem c7_history_insert (history : List HistoryItem) (item : HistoryItem)
    (h : (history.map HistoryItem.id).Nodup) :
    saveToHistory history item =
      item :: history.filter (fun x => x.id != item.id) ∧
    (saveToHistory history item).head? = some item ∧
    ((saveToHistory history item).map HistoryItem.id).Nodup ∧
    (saveToHistory history item).filter (fun x => x.id != item.id) =
      history.filter (fun x => x.id != item.id) := by
  refine ⟨rfl, rfl, ?_, ?_⟩
  · simp only [saveToHistory, List.map_cons, List.nodup_cons]
    constructor
    · intro hmem
      obtain ⟨x, hx, hid⟩ := List.mem_map.mp hmem
      have hpx := (List.mem_filter.mp hx).2
      rw [bne_iff_ne] at hpx
      exact hpx hid
    · exact h.sublist ((List.filter_sublist history).map HistoryItem.id)
  · simp only [saveToHistory, List.filter_cons]
    rw [show (item.id != item.id) = false by simp]
    simp [List.filter_filter]

theorem c7_history_insert_witness :
    (saveToHistory
        [⟨"1", "note", none, 0, Sum.inl "a", none⟩,
         ⟨"2", "chart", none, 1, Sum.inl "b", none⟩]
        ⟨"2", "chat", none, 5, Sum.inl "c", none⟩ =
      ⟨"2", "chat", none, 5, Sum.inl "c", none⟩ ::
        List.filter (fun x => x.id != "2")
          [⟨"1", "note", none, 0, Sum.inl "a", none⟩,
           ⟨"2", "chart", none, 1, Sum.inl "b", none⟩]) ∧
    (saveToHistory
        [⟨"1", "note", none, 0, Sum.inl "a", none⟩,
         ⟨"2", "chart", none, 1, Sum.inl "b", none⟩]
        ⟨"2", "chat", none, 5, Sum.inl "c", none⟩).head? =
      some ⟨"2", "chat", none, 5, Sum.inl "c", none⟩ ∧
    ((saveToHistory
        [⟨"1", "note", none, 0, Sum.inl "a", none⟩,
         ⟨"2", "chart", none, 1, Sum.inl "b", none⟩]
        ⟨"2", "chat", none, 5, Sum.inl "c", none⟩).map HistoryItem.id).Nodup ∧
    (saveToHistory
        [⟨"1", "note", none, 0, Sum.inl "a", none⟩,
         ⟨"2", "chart", none, 1, Sum.inl "b", none⟩]
        ⟨"2", "chat", none, 5, Sum.inl "c", none⟩).filter (fun x => x.id != "2") =
      List.filter (fun x => x.id != "2")
        [⟨"1", "note", none, 0, Sum.inl "a", none⟩,
         ⟨"2", "chart", none, 1, Sum.inl "b", none⟩] :=
  c7_history_insert
    [⟨"1", "note", none, 0, Sum.inl "a", none⟩,
     ⟨"2", "chart", none, 1, Sum.inl "b", none⟩]
    ⟨"2", "chat", none, 5, Sum.inl "c", none⟩ (by decide)

lemma analyzeGo_all_ok (store : Option String) (net : Net) (title : Option String)
    (total : Nat) (notes : Nat → String) :
    ∀ (cs : List String) (i0 : Nat),
      (∀ k, k < cs.length →
        (callWithFallback store net TEXT_MODEL TEXT_FALLBACK_MODEL
          (noteMessages title (i0 + k) total (cs.getD k "")) noteOptions).1 =
            .ok (notes (i0 + k))) →
      analyzeGo store net title total i0 cs =
        (.ok ((List.range cs.length).map fun k =>
            "## 部分 " ++ toString (i0 + k + 1) ++ "\n" ++ jsTrim (notes (i0 + k))),
         List.flatten ((List.range cs.length).map fun k =>
           (callWithFallback store net TEXT_MODEL TEXT_FALLBACK_MODEL
             (noteMessages title (i0 + k) total (cs.getD k "")) noteOptions).2)) := by
  intro cs
  induction cs with
  | nil =>
    intro i0 hok
    simp [analyzeGo]
  | cons c rest ih =>
    intro i0 hok
    have h0 := hok 0 (Nat.succ_pos _)
    simp only [List.getD_cons_zero, Nat.add_zero] at h0
    have htail : ∀ k, k < rest.length →
        (callWithFallback store net TEXT_MODEL TEXT_FALLBACK_MODEL
          (noteMessages title (i0 + 1 + k) total (rest.getD k "")) noteOptions).1 =
            .ok (notes (i0 + 1 + k)) := by
      intro k hk
      have hcall := hok (k + 1) (Nat.succ_lt_succ hk)
      have heq : i0 + (k + 1) = i0 + 1 + k := by omega
      rw [List.getD_cons_succ, heq] at hcall
      exact hcall
    simp only [analyzeGo]
    rw [h0]
    simp only []
    rw [ih (i0 + 1) htail]
    simp only [List.length_cons, List.range_succ_eq_map, List.map_cons, List.map_map,
      List.flatten_cons, List.getD_cons_zero, List.getD_cons_succ, Nat.add_zero,
      Function.comp_def, Nat.succ_eq_add_one, Nat.add_assoc, Nat.add_comm,
      Nat.add_left_comm]

lemma analyzeGo_abort (store : Option String) (net : Net) (title : Option String)
    (total : Nat) (notes : Nat → String) :
    ∀ (cs : List String) (i0 j : Nat) (e : GatewayError),
      j < cs.length →
      (∀ k, k < j →
        (callWithFallback store net TEXT_MODEL TEXT_FALLBACK_MODEL
          (noteMessages title (i0 + k) total (cs.getD k "")) noteOptions).1 =
            .ok (notes (i0 + k))) →
      (callWithFallback store net TEXT_MODEL TEXT_FALLBACK_MODEL
        (noteMessages title (i0 + j) total (cs.getD j "")) noteOptions).1 = .error e →
      analyzeGo store net title total i0 cs =
        (.error e,
         List.flatten ((List.range (j + 1)).map fun k =>
           (callWithFallback store net TEXT_MODEL TEXT_FALLBACK_MODEL
             (noteMessages title (i0 + k) total (cs.getD k "")) noteOptions).2)) := by
  intro cs
  induction cs with
  | nil =>
    intro i0 j e hj hok herr
    simp at hj
  | cons c rest ih =>
    intro i0 j e hj hok herr
    cases j with
    | zero =>
      simp only [List.getD_cons_zero, Nat.add_zero] at herr
      simp only [analyzeGo]
      rw [herr]
      have hr : List.range 1 = [0] := rfl
      simp [hr]
    | succ j' =>
      have h0 := hok 0 (Nat.succ_pos _)
      simp only [List.getD_cons_zero, Nat.add_zero] at h0
      have herr' : (callWithFallback store net TEXT_MODEL TEXT_FALLBACK_MODEL
          (noteMessages title (i0 + 1 + j') total (rest.getD j' "")) noteOptions).1 =
            .error e := by
        have heq : i0 + (j' + 1) = i0 + 1 + j' := by omega
        rw [List.getD_cons_succ, heq] at herr
        exact herr
      have htail : ∀ k, k < j' →
          (callWithFallback store net TEXT_MODEL TEXT_FALLBACK_MODEL
            (noteMessages title (i0 + 1 + k) total (rest.getD k "")) noteOptions).1 =
              .ok (notes (i0 + 1 + k)) := by
        intro k hk
        have hcall := hok (k + 1) (Nat.succ_lt_succ hk)
        have heq : i0 + (k + 1) = i0 + 1 + k := by omega
        rw [List.getD_cons_succ, heq] at hcall
        exact hcall
      simp only [analyzeGo]
      rw [h0]
      simp only []
      have hj' : j' < rest.length := by
        simp only [List.length_cons] at hj
        omega
      rw [ih (i0 + 1) j' e hj' htail herr']
      simp only [List.range_succ_eq_map, List.map_cons, List.map_map, List.flatten_cons,
        List.getD_cons_zero, List.getD_cons_succ, Nat.add_zero, Function.comp_def,
        Nat.succ_eq_add_one, Nat.add_assoc, Nat.add_comm, Nat.add_left_comm]

/-- C2: paper note generation performs one gateway call per chunk,
strictly sequentially in chunk order.  When every chunk call succeeds the
result is the per-chunk notes, trimmed and concatenated in chunk order
under the synthetic top-level heading, and the issued requests are the
per-chunk requests in chunk order; when the first failing chunk is `j`,
the whole operation returns that chunk's error, no note at all, and no
request beyond chunk `j` is issued. -/
theorem c2_analyze_paper_sequential (store : Option String) (net : Net)
    (pdfText : String) (title : Option String) (chunks : List String)
    (notes : Nat → String)
    (hc : splitIntoChunksStr pdfText NOTE_CHUNK_SIZE NOTE_CHUNK_OVERLAP = some chunks) :
    ((∀ i, i < chunks.length →
        (callWithFallback store net TEXT_MODEL TEXT_FALLBACK_MODEL
          (noteMessages title i chunks.length (chunks.getD i "")) noteOptions).1 =
            .ok (notes i)) →
      analyzePaper store net pdfText title =
        some (.ok (noteHeader ++ String.intercalate "\n\n"
            ((List.range chunks.length).map fun i =>
              "## 部分 " ++ toString (i + 1) ++ "\n" ++ jsTrim (notes i))),
          List.flatten ((List.range chunks.length).map fun i =>
            (callWithFallback store net TEXT_MODEL TEXT_FALLBACK_MODEL
              (noteMessages title i chunks.length (chunks.getD i "")) noteOptions).2))) ∧
    (∀ j e, j < chunks.length →
      (∀ i, i < j →
        (callWithFallback store net TEXT_MODEL TEXT_FALLBACK_MODEL
          (noteMessages title i chunks.length (chunks.getD i "")) noteOptions).1 =
            .ok (notes i)) →
      (callWithFallback store net TEXT_MODEL TEXT_FALLBACK_MODEL
        (noteMessages title j chunks.length (chunks.getD j "")) noteOptions).1 =
          .error e →
      analyzePaper store net pdfText title =
        some (.error e,
          List.flatten ((List.range (j + 1)).map fun i =>
            (callWithFallback store net TEXT_MODEL TEXT_FALLBACK_MODEL
              (noteMessages title i chunks.length (chunks.getD i "")) noteOptions).2))) := by
  constructor
  · intro hok
    have hgo := analyzeGo_all_ok store net title chunks.length notes chunks 0
      (by intro k hk; simpa using hok k hk)
    simp only [analyzePaper, hc, Option.map_some']
    rw [hgo]
    simp [Except.map]
  · intro j e hj hord herr
    have hgo := analyzeGo_abort store net title chunks.length notes chunks 0 j e hj
      (by intro k hk; simpa using hord k hk) (by simpa using herr)
    simp only [analyzePaper, hc, Option.map_some']
    rw [hgo]
    simp [Except.map]

theorem c2_analyze_paper_sequential_witness :
    analyzePaper (some "k") allOkNet "hi" none =
      some (.ok (noteHeader ++ String.intercalate "\n\n"
          ((List.range 1).map fun i => "## 部分 " ++ toString (i + 1) ++ "\n" ++ jsTrim "N")),
        List.flatten ((List.range 1).map fun i =>
          (callWithFallback (some "k") allOkNet TEXT_MODEL TEXT_FALLBACK_MODEL
            (noteMessages none i 1 (["hi"].getD i "")) noteOptions).2)) :=
  (c2_analyze_paper_sequential (some "k") allOkNet "hi" none ["hi"] (fun _ => "N")
      (by decide)).1
    (by
      intro i hi
      simp only [List.length_cons, List.length_nil] at hi
      have h0 : i = 0 := by omega
      subst h0
      rfl)
